import Mathlib

/-!
Verification of the Black-Scholes option pricer and heatmap generator
(`src/black_scholes.py`, `src/heatmap.py`).

The numeric code is embedded over the reals: Python `float` arithmetic is
modelled by exact real arithmetic, `math.log` by `Real.log`, `x ** 0.5` by
`Real.sqrt`, `math.e ** x` / `np.exp(x)` by `Real.exp`, and `scipy.stats.norm`
by the standard normal density / cumulative distribution defined below as a
Lebesgue integral.  `np.round(x, 2)` is numpy's round-half-to-even at two
decimals, and `np.ceil(x * 100) / 100` is modelled with `Int.ceil`.
-/

open MeasureTheory Set

/-- Standard normal probability density `φ` (scipy `norm.pdf`):
`exp (-x² / 2) / √(2π)`. -/
noncomputable def normPdf (x : ℝ) : ℝ := Real.exp (-(x ^ 2 / 2)) / Real.sqrt (2 * Real.pi)

/-- Standard normal cumulative distribution `Φ` (scipy `norm.cdf`):
the integral of `normPdf` over `(-∞, x]`. -/
noncomputable def normCdf (x : ℝ) : ℝ := ∫ t in Iic x, normPdf t

lemma normPdf_eq_gaussianPDFReal : normPdf = ProbabilityTheory.gaussianPDFReal 0 1 := by
  funext x
  unfold normPdf ProbabilityTheory.gaussianPDFReal
  push_cast
  rw [mul_one, sub_zero, div_eq_inv_mul]
  ring_nf

lemma normPdf_pos (x : ℝ) : 0 < normPdf x := by
  rw [normPdf_eq_gaussianPDFReal]
  exact ProbabilityTheory.gaussianPDFReal_pos 0 1 x one_ne_zero

lemma normPdf_nonneg (x : ℝ) : 0 ≤ normPdf x := (normPdf_pos x).le

lemma integrable_normPdf : Integrable normPdf := by
  rw [normPdf_eq_gaussianPDFReal]
  exact ProbabilityTheory.integrable_gaussianPDFReal 0 1

lemma integral_normPdf : ∫ x, normPdf x = 1 := by
  rw [normPdf_eq_gaussianPDFReal]
  exact ProbabilityTheory.integral_gaussianPDFReal_eq_one 0 one_ne_zero

lemma normPdf_neg (x : ℝ) : normPdf (-x) = normPdf x := by
  unfold normPdf; rw [neg_pow]; norm_num

/-- Reflection identity: `Φ (-x) = 1 - Φ x`. -/
lemma normCdf_neg (x : ℝ) : normCdf (-x) = 1 - normCdf x := by
  have hsplit : (∫ t in Iic x, normPdf t) + (∫ t in Ioi x, normPdf t) = ∫ t, normPdf t :=
    intervalIntegral.integral_Iic_add_Ioi integrable_normPdf.integrableOn
      integrable_normPdf.integrableOn
  have hrefl : (∫ t in Iic (-x), normPdf t) = ∫ t in Ioi x, normPdf t := by
    have := integral_comp_neg_Iic (-x) normPdf
    simp only [neg_neg] at this
    rw [← this]
    exact setIntegral_congr_fun measurableSet_Iic (fun t _ => (normPdf_neg t).symm)
  rw [integral_normPdf] at hsplit
  unfold normCdf
  rw [hrefl]
  linarith

lemma normCdf_zero : normCdf 0 = 1 / 2 := by
  have h := normCdf_neg 0
  rw [neg_zero] at h
  linarith

lemma normCdf_mono : Monotone normCdf := by
  intro a b hab
  exact setIntegral_mono_set integrable_normPdf.integrableOn
    (ae_of_all _ normPdf_nonneg) (HasSubset.Subset.eventuallyLE (Iic_subset_Iic.mpr hab))

lemma normCdf_pos (x : ℝ) : 0 < normCdf x := by
  unfold normCdf
  rw [setIntegral_pos_iff_support_of_nonneg_ae (ae_of_all _ normPdf_nonneg)
    integrable_normPdf.integrableOn]
  have hsupp : Function.support normPdf = univ := by
    ext t; simp [Function.mem_support, (normPdf_pos t).ne']
  rw [hsupp, univ_inter]
  simp [Real.volume_Iic]

lemma normCdf_lt_one (x : ℝ) : normCdf x < 1 := by
  have h := normCdf_neg x
  have := normCdf_pos (-x)
  linarith

lemma normCdf_add_neg (x : ℝ) : normCdf x + normCdf (-x) = 1 := by
  rw [normCdf_neg]; ring

/-! ## The pricer (`src/black_scholes.py`) -/

/-- Modelled from the spec: `src/enums.py` (imported as `from .enums import OptionType`)
is not among the provided sources.  Per the spec, the side of a contract is
`CALL` or `PUT`; the code refers to the members as `CALL_OPTION` / `PUT_OPTION`. -/
inductive OptionType
  | CALL_OPTION
  | PUT_OPTION
deriving DecidableEq

open scoped Classical in
/-- The `BlackScholes` object.  The seven constructor parameters are stored by
`__init__`; `d1` is initialised to `None` and `d2` is simply absent until first
assigned, so both are modelled as `Option ℝ` starting at `none`. -/
structure BlackScholes where
  stock_price : ℝ
  strike_price : ℝ
  time_to_exp : ℝ
  risk_free_rate : ℝ
  volatility : ℝ
  option_type : OptionType
  base_price : ℝ
  d1 : Option ℝ
  d2 : Option ℝ

/-- `BlackScholes.__init__`: store the parameters, set `d1 = None` (and leave
`d2` unset). -/
def BlackScholes.make (stock_price strike_price time_to_exp risk_free_rate volatility : ℝ)
    (option_type : OptionType) (base_price : ℝ) : BlackScholes :=
  ⟨stock_price, strike_price, time_to_exp, risk_free_rate, volatility, option_type,
    base_price, none, none⟩

/-- `BlackScholes.calculate_d1`: store and return
`(log(S/K) + T(r + σ²/2)) / (σ·T^0.5)`. -/
noncomputable def BlackScholes.calculate_d1 (self : BlackScholes) : BlackScholes × ℝ :=
  let v := (Real.log (self.stock_price / self.strike_price)
      + self.time_to_exp * (self.risk_free_rate + self.volatility ^ 2 / 2))
    / (self.volatility * Real.sqrt self.time_to_exp)
  ({ self with d1 := some v }, v)

/-- `BlackScholes.calculate_d2`: store and return `d1 - σ·T^0.5`, reading the
stored `self.d1`.  If `d1` is still `None`, Python raises a `TypeError`
(`None - float`); that exceptional outcome is the `none` branch. -/
noncomputable def BlackScholes.calculate_d2 (self : BlackScholes) : BlackScholes × Option ℝ :=
  match self.d1 with
  | none => (self, none)
  | some d1v =>
    let v := d1v - self.volatility * Real.sqrt self.time_to_exp
    ({ self with d2 := some v }, some v)

/-- `BlackScholes.calculate_price`: run `calculate_d1` and `calculate_d2`
(storing both intermediates on the object) and return the call or put price.
The linear dataflow `self.calculate_d1(); self.calculate_d2()` is inlined:
`d1v`/`d2v` are exactly the values those two methods compute and store here
(see `calculate_price_runs_d1` / `calculate_price_runs_d2` below). -/
noncomputable def BlackScholes.calculate_price (self : BlackScholes) : BlackScholes × ℝ :=
  let d1v := (Real.log (self.stock_price / self.strike_price)
      + self.time_to_exp * (self.risk_free_rate + self.volatility ^ 2 / 2))
    / (self.volatility * Real.sqrt self.time_to_exp)
  let d2v := d1v - self.volatility * Real.sqrt self.time_to_exp
  let pr :=
    if self.option_type = OptionType.CALL_OPTION then
      self.stock_price * normCdf d1v
        - self.strike_price * Real.exp (-1 * self.risk_free_rate * self.time_to_exp)
          * normCdf d2v
    else
      self.strike_price * Real.exp (-1 * self.risk_free_rate * self.time_to_exp)
          * normCdf (-1 * d2v)
        - self.stock_price * normCdf (-1 * d1v)
  ({ self with d1 := some d1v, d2 := some d2v }, pr)

lemma calculate_price_runs_d1 (self : BlackScholes) :
    self.calculate_price.1.d1 = some self.calculate_d1.2 := rfl

lemma calculate_price_runs_d2 (self : BlackScholes) :
    (self.calculate_d1.1.calculate_d2.1.d1 = self.calculate_price.1.d1
      ∧ self.calculate_d1.1.calculate_d2.1.d2 = self.calculate_price.1.d2)
      ∧ self.calculate_price.1.d2 = some (self.calculate_d1.2
          - self.volatility * Real.sqrt self.time_to_exp) := by
  constructor
  · constructor <;> rfl
  · rfl

/-- `BlackScholes.calculate_delta`; `norm.cdf(None)` would raise, hence the
`Option`. -/
noncomputable def BlackScholes.calculate_delta (self : BlackScholes) : Option ℝ :=
  self.d1.map fun d1v =>
    if self.option_type = OptionType.CALL_OPTION then normCdf d1v
    else normCdf d1v - 1

/-- `BlackScholes.calculate_gamma`. -/
noncomputable def BlackScholes.calculate_gamma (self : BlackScholes) : Option ℝ :=
  self.d1.map fun d1v =>
    normPdf d1v / (self.stock_price * self.volatility * Real.sqrt self.time_to_exp)

/-- `BlackScholes.calculate_vega`. -/
noncomputable def BlackScholes.calculate_vega (self : BlackScholes) : Option ℝ :=
  self.d1.map fun d1v =>
    self.stock_price * normPdf d1v * Real.sqrt self.time_to_exp

/-- `BlackScholes.calculate_theta`; needs both stored intermediates. -/
noncomputable def BlackScholes.calculate_theta (self : BlackScholes) : Option ℝ :=
  match self.d1, self.d2 with
  | some d1v, some d2v =>
    some (if self.option_type = OptionType.CALL_OPTION then
        -self.stock_price * normPdf d1v * self.volatility / (2 * Real.sqrt self.time_to_exp)
          - self.risk_free_rate * self.strike_price
            * Real.exp (-self.risk_free_rate * self.time_to_exp) * normCdf d2v
      else
        -self.stock_price * normPdf d1v * self.volatility / (2 * Real.sqrt self.time_to_exp)
          + self.risk_free_rate * self.strike_price
            * Real.exp (-self.risk_free_rate * self.time_to_exp) * normCdf (-d2v))
  | _, _ => none

/-- `BlackScholes.calculate_rho`.  Note the leading factor is the stock price
`S`, exactly as in the source. -/
noncomputable def BlackScholes.calculate_rho (self : BlackScholes) : Option ℝ :=
  self.d2.map fun d2v =>
    if self.option_type = OptionType.CALL_OPTION then
      self.stock_price * self.time_to_exp
        * Real.exp (-self.risk_free_rate * self.time_to_exp) * normCdf d2v
    else
      self.stock_price * self.time_to_exp
        * Real.exp (-self.risk_free_rate * self.time_to_exp) * normCdf (-d2v)

open scoped Classical in
/-- `BlackScholes.calculate_greeks`: Python's guard `if (not self.d1)` fires
when `d1` is `None` or exactly `0.0` (falsy float), in which case it calls
`calculate_price` first; then the five Greeks are computed from the stored
`d1`/`d2` and returned as a list. -/
noncomputable def BlackScholes.calculate_greeks (self : BlackScholes) :
    BlackScholes × Option (List ℝ) :=
  let trigger : Prop := match self.d1 with | none => True | some v => v = 0
  let s := if trigger then self.calculate_price.1 else self
  match s.calculate_delta, s.calculate_gamma, s.calculate_vega,
      s.calculate_theta, s.calculate_rho with
  | some dl, some gm, some vg, some th, some rh => (s, some [dl, gm, vg, th, rh])
  | _, _, _, _, _ => (s, none)

/-! ## Python exception semantics of `calculate_price` (for the error-handling claim)

The pure embedding above is total over ℝ.  To settle the error-handling claim
we also embed `calculate_price` together with the exceptions CPython / scipy
would raise on the way: `float / 0.0` raises `ZeroDivisionError`, `math.log`
of a non-positive float raises `ValueError`, and a negative float raised to
the fractional power `0.5` produces a `complex` value, which `norm.cdf`
(ufunc `ndtr`) then rejects with a `TypeError`.  Since every such complex
value in this method flows into `norm.cdf`, the complex case is folded into
an immediate `typeError` at the power site; no theorem below relies on the
order of errors in that `T < 0` branch.  `invalidParameter` is the error
class the spec asks for; nothing in the source ever raises it. -/

inductive PyErr
  | valueError
  | zeroDivisionError
  | typeError
  | invalidParameter
deriving DecidableEq

open scoped Classical in
/-- Python float division. -/
noncomputable def pydiv (x y : ℝ) : Except PyErr ℝ :=
  if y = 0 then .error .zeroDivisionError else .ok (x / y)

open scoped Classical in
/-- Python `math.log` on floats. -/
noncomputable def pylog (x : ℝ) : Except PyErr ℝ :=
  if x ≤ 0 then .error .valueError else .ok (Real.log x)

open scoped Classical in
/-- Python `x ** 0.5` (see the complex-folding note above). -/
noncomputable def pypow_half (x : ℝ) : Except PyErr ℝ :=
  if x < 0 then .error .typeError else .ok (Real.sqrt x)

/-- `BlackScholes.calculate_price` with Python's exception behaviour, in the
source's evaluation order: `math.log(S / K)` first (so `S / K` then `log`),
then the numerator, then the denominator `σ * T**0.5` and the division in
`calculate_d1`; then `d2`; then the price formula (`norm.cdf` never raises on
real arguments). -/
noncomputable def calculate_priceE (S K T r σ : ℝ) (ty : OptionType) : Except PyErr ℝ := do
  let ratio ← pydiv S K
  let lg ← pylog ratio
  let num := lg + T * (r + σ ^ 2 / 2)
  let root ← pypow_half T
  let d1v ← pydiv num (σ * root)
  let root2 ← pypow_half T
  let d2v := d1v - σ * root2
  pure (if ty = OptionType.CALL_OPTION then
      S * normCdf d1v - K * Real.exp (-1 * r * T) * normCdf d2v
    else
      K * Real.exp (-1 * r * T) * normCdf (-1 * d2v) - S * normCdf (-1 * d1v))

/-! ## Rounding primitives used by the heatmap (`numpy` semantics) -/

open scoped Classical in
/-- `np.round` to an integer: round half to even (banker's rounding). -/
noncomputable def roundHalfEven (x : ℝ) : ℤ :=
  if x - ⌊x⌋ < 1 / 2 then ⌊x⌋
  else if 1 / 2 < x - ⌊x⌋ then ⌊x⌋ + 1
  else if Even ⌊x⌋ then ⌊x⌋ else ⌊x⌋ + 1

/-- `np.round(x, 2)`. -/
noncomputable def round2 (x : ℝ) : ℝ := (roundHalfEven (x * 100) : ℝ) / 100

/-- `np.ceil(x * 100) / 100`, the axis-value rounding of `generate_grid`. -/
noncomputable def ceil2 (x : ℝ) : ℝ := (⌈x * 100⌉ : ℝ) / 100

/-- `np.linspace(a, b, 10)`: ten evenly spaced values from `a` to `b`
inclusive, the `k`-th being `a + (b - a) * k / 9`. -/
noncomputable def linspace10 (a b : ℝ) (k : ℕ) : ℝ := a + (b - a) * k / 9

/-! ## The heatmap (`src/heatmap.py`) -/

/-- The `Heatmap` object's constructor parameters (`__init__` additionally
allocates the 10×10 zero matrix that `compute_matrix` then fills). -/
structure Heatmap where
  strike_price : ℝ
  time_to_exp : ℝ
  risk_free_rate : ℝ
  option_type : OptionType
  min_stock_price : ℝ
  max_stock_price : ℝ
  min_volatility : ℝ
  max_volatility : ℝ
  isPNL : Bool
  base_price : ℝ

/-- The `j`-th entry of `self.stock_prices` produced by
`Heatmap.generate_grid`: `np.ceil(np.linspace(min, max, 10) * 100) / 100`. -/
noncomputable def Heatmap.stock_prices (self : Heatmap) (j : ℕ) : ℝ :=
  ceil2 (linspace10 self.min_stock_price self.max_stock_price j)

/-- The `i`-th entry of `self.volatilities` produced by
`Heatmap.generate_grid`. -/
noncomputable def Heatmap.volatilities (self : Heatmap) (i : ℕ) : ℝ :=
  ceil2 (linspace10 self.min_volatility self.max_volatility i)

/-- `Heatmap.generate_grid` as the pair of length-10 axis lists it returns. -/
noncomputable def Heatmap.generate_grid (self : Heatmap) : List ℝ × List ℝ :=
  ((List.range 10).map self.stock_prices, (List.range 10).map self.volatilities)

/-- `Heatmap.compute_matrix`, cell `(i, j)`: the loop runs
`for i, vol in enumerate(self.volatilities): for j, s in enumerate(self.stock_prices)`
and each cell is written independently, so the filled matrix is the function
of `(i, j)` below: build the `BlackScholes` object from the cell's stock price
`s = stock_prices[j]` and volatility `vol = volatilities[i]` plus the shared
parameters, then store `np.round(base_price - price, 2)` in P&L mode and
`np.round(price, 2)` otherwise. -/
noncomputable def Heatmap.compute_matrix (self : Heatmap) (i j : ℕ) : ℝ :=
  let option : BlackScholes := BlackScholes.make (self.stock_prices j) self.strike_price
    self.time_to_exp self.risk_free_rate (self.volatilities i) self.option_type
    self.base_price
  if self.isPNL then round2 (option.base_price - option.calculate_price.2)
  else round2 option.calculate_price.2

/-! ## Auxiliary lemmas about the pricer -/

lemma calculate_price_call (S K T r σ b : ℝ) :
    (BlackScholes.make S K T r σ OptionType.CALL_OPTION b).calculate_price.2
      = S * normCdf ((Real.log (S / K) + T * (r + σ ^ 2 / 2)) / (σ * Real.sqrt T))
        - K * Real.exp (-(r * T))
          * normCdf ((Real.log (S / K) + T * (r + σ ^ 2 / 2)) / (σ * Real.sqrt T)
              - σ * Real.sqrt T) := by
  simp only [BlackScholes.calculate_price, BlackScholes.make, if_pos rfl]
  norm_num

lemma calculate_price_put (S K T r σ b : ℝ) :
    (BlackScholes.make S K T r σ OptionType.PUT_OPTION b).calculate_price.2
      = K * Real.exp (-(r * T))
          * normCdf (-((Real.log (S / K) + T * (r + σ ^ 2 / 2)) / (σ * Real.sqrt T)
              - σ * Real.sqrt T))
        - S * normCdf (-((Real.log (S / K) + T * (r + σ ^ 2 / 2)) / (σ * Real.sqrt T))) := by
  simp only [BlackScholes.calculate_price, BlackScholes.make]
  norm_num
  exact fun h => absurd h (by decide)

/-- C1: for every contract satisfying the preconditions, `calculate_price`
returns `S·Φ(d1) − K·e^(−rT)·Φ(d2)` for a CALL and
`K·e^(−rT)·Φ(−d2) − S·Φ(−d1)` for a PUT, with
`d1 = (ln(S/K) + T·(r + σ²/2)) / (σ·√T)` and `d2 = d1 − σ·√T`. -/
theorem C1_price_formula (S K T r σ b : ℝ)
    (hS : 0 < S) (hK : 0 < K) (hT : 0 < T) (hσ : 0 < σ) :
    (BlackScholes.make S K T r σ OptionType.CALL_OPTION b).calculate_price.2
      = S * normCdf ((Real.log (S / K) + T * (r + σ ^ 2 / 2)) / (σ * Real.sqrt T))
        - K * Real.exp (-(r * T))
          * normCdf ((Real.log (S / K) + T * (r + σ ^ 2 / 2)) / (σ * Real.sqrt T)
              - σ * Real.sqrt T)
    ∧ (BlackScholes.make S K T r σ OptionType.PUT_OPTION b).calculate_price.2
      = K * Real.exp (-(r * T))
          * normCdf (-((Real.log (S / K) + T * (r + σ ^ 2 / 2)) / (σ * Real.sqrt T)
              - σ * Real.sqrt T))
        - S * normCdf (-((Real.log (S / K) + T * (r + σ ^ 2 / 2)) / (σ * Real.sqrt T))) :=
  ⟨calculate_price_call S K T r σ b, calculate_price_put S K T r σ b⟩

/-- Witness for C1 at `S=100, K=105, T=0.5, r=0.05, σ=0.2`. -/
theorem C1_price_formula_witness :
    (0 : ℝ) < 100 ∧
    (BlackScholes.make 100 105 (1/2) (1/20) (1/5) OptionType.CALL_OPTION 0).calculate_price.2
      = 100 * normCdf ((Real.log ((100 : ℝ) / 105) + (1/2) * (1/20 + (1/5) ^ 2 / 2))
            / ((1/5) * Real.sqrt (1/2)))
        - 105 * Real.exp (-((1/20) * (1/2)))
          * normCdf ((Real.log ((100 : ℝ) / 105) + (1/2) * (1/20 + (1/5) ^ 2 / 2))
              / ((1/5) * Real.sqrt (1/2)) - (1/5) * Real.sqrt (1/2)) :=
  ⟨by norm_num,
    (C1_price_formula 100 105 (1/2) (1/20) (1/5) 0 (by norm_num) (by norm_num)
      (by norm_num) (by norm_num)).1⟩

/-- C3: for every valid contract, rho (computed from the stored `d2` after
`calculate_price`) equals `S·T·e^(−rT)·Φ(d2)` for a CALL and
`S·T·e^(−rT)·Φ(−d2)` for a PUT — with the stock price `S`, not the strike `K`,
as the leading factor. -/
theorem C3_rho_leading_factor (S K T r σ b : ℝ)
    (hS : 0 < S) (hK : 0 < K) (hT : 0 < T) (hσ : 0 < σ) :
    (BlackScholes.make S K T r σ OptionType.CALL_OPTION b).calculate_price.1.calculate_rho
      = some (S * T * Real.exp (-(r * T))
          * normCdf ((Real.log (S / K) + T * (r + σ ^ 2 / 2)) / (σ * Real.sqrt T)
              - σ * Real.sqrt T))
    ∧ (BlackScholes.make S K T r σ OptionType.PUT_OPTION b).calculate_price.1.calculate_rho
      = some (S * T * Real.exp (-(r * T))
          * normCdf (-((Real.log (S / K) + T * (r + σ ^ 2 / 2)) / (σ * Real.sqrt T)
              - σ * Real.sqrt T))) := by
  constructor <;>
    · simp only [BlackScholes.calculate_rho, BlackScholes.calculate_price, BlackScholes.make,
        Option.map_some']
      norm_num [mul_comm]
      try exact fun h => absurd h (by decide)

/-- Witness for C3 at `S=100, K=105, T=0.5, r=0.05, σ=0.2`. -/
theorem C3_rho_leading_factor_witness :
    (0 : ℝ) < 100 ∧
    (BlackScholes.make 100 105 (1/2) (1/20) (1/5)
        OptionType.CALL_OPTION 0).calculate_price.1.calculate_rho
      = some (100 * (1/2) * Real.exp (-((1/20) * (1/2)))
          * normCdf ((Real.log ((100 : ℝ) / 105) + (1/2) * (1/20 + (1/5) ^ 2 / 2))
              / ((1/5) * Real.sqrt (1/2)) - (1/5) * Real.sqrt (1/2))) :=
  ⟨by norm_num,
    (C3_rho_leading_factor 100 105 (1/2) (1/20) (1/5) 0 (by norm_num) (by norm_num)
      (by norm_num) (by norm_num)).1⟩

/-- C7: put-call parity.  For every contract satisfying the preconditions,
`putPrice − callPrice = K·e^(−rT) − S`, exactly, over the real-number
embedding. -/
theorem C7_put_call_parity (S K T r σ b : ℝ)
    (hS : 0 < S) (hK : 0 < K) (hT : 0 < T) (hσ : 0 < σ) :
    (BlackScholes.make S K T r σ OptionType.PUT_OPTION b).calculate_price.2
      - (BlackScholes.make S K T r σ OptionType.CALL_OPTION b).calculate_price.2
      = K * Real.exp (-(r * T)) - S := by
  simp only [BlackScholes.calculate_price, BlackScholes.make]
  rw [if_neg (by decide : ¬ (OptionType.PUT_OPTION = OptionType.CALL_OPTION)), if_true]
  simp only [neg_mul, one_mul]
  rw [normCdf_neg ((Real.log (S / K) + T * (r + σ ^ 2 / 2)) / (σ * Real.sqrt T)),
    normCdf_neg ((Real.log (S / K) + T * (r + σ ^ 2 / 2)) / (σ * Real.sqrt T)
      - σ * Real.sqrt T)]
  ring

/-- Witness for C7 at `S=100, K=105, T=0.5, r=0.05, σ=0.2`. -/
theorem C7_put_call_parity_witness :
    (0 : ℝ) < 100 ∧
    (BlackScholes.make 100 105 (1/2) (1/20) (1/5) OptionType.PUT_OPTION 0).calculate_price.2
      - (BlackScholes.make 100 105 (1/2) (1/20) (1/5)
          OptionType.CALL_OPTION 0).calculate_price.2
      = 105 * Real.exp (-((1/20) * (1/2))) - 100 :=
  ⟨by norm_num,
    C7_put_call_parity 100 105 (1/2) (1/20) (1/5) 0 (by norm_num) (by norm_num)
      (by norm_num) (by norm_num)⟩

/-- C9: calling `calculate_greeks` on a freshly constructed object (with `d1`
unset, so the `if (not self.d1)` guard triggers `calculate_price`) returns the
same `[delta, gamma, vega, theta, rho]` list as calling `calculate_price`
first and then `calculate_greeks` — also when the stored `d1` is exactly `0`,
which the truthiness guard treats as unset and recomputes. -/
theorem C9_greeks_guard_invisible (S K T r σ b : ℝ) (ty : OptionType) :
    ((BlackScholes.make S K T r σ ty b).calculate_greeks).2
      = (((BlackScholes.make S K T r σ ty b).calculate_price.1).calculate_greeks).2 := by
  simp only [BlackScholes.calculate_greeks, BlackScholes.make, BlackScholes.calculate_price]
  by_cases h : (Real.log (S / K) + T * (r + σ ^ 2 / 2)) / (σ * Real.sqrt T) = 0
  · rw [if_pos trivial, if_pos h]
  · rw [if_pos trivial, if_neg h]

/-- C10: two instances that agree on all pricing parameters and differ only in
`base_price` produce identical `calculate_price` and `calculate_greeks`
outputs. -/
theorem C10_base_price_no_influence (S K T r σ : ℝ) (ty : OptionType) (b b' : ℝ) :
    (BlackScholes.make S K T r σ ty b).calculate_price.2
        = (BlackScholes.make S K T r σ ty b').calculate_price.2
    ∧ (BlackScholes.make S K T r σ ty b).calculate_greeks.2
        = (BlackScholes.make S K T r σ ty b').calculate_greeks.2 := by
  constructor
  · rfl
  · simp only [BlackScholes.calculate_greeks, BlackScholes.make, BlackScholes.calculate_price]
    rw [if_pos trivial, if_pos trivial]
    simp only [BlackScholes.calculate_delta, BlackScholes.calculate_gamma,
      BlackScholes.calculate_vega, BlackScholes.calculate_theta, BlackScholes.calculate_rho,
      Option.map_some']

lemma except_ok_bind {ε α β : Type} (a : α) (f : α → Except ε β) :
    (Except.ok a >>= f : Except ε β) = f a := rfl

lemma except_error_bind {ε α β : Type} (e : ε) (f : α → Except ε β) :
    (Except.error e >>= f : Except ε β) = Except.error e := rfl

/-- C2 counterexample: with `stock_price = -100` and `strike_price = -105`
(both non-positive), `calculate_price` raises nothing at all — the negatives
cancel inside `math.log(S/K)` — and returns an ordinary value; in particular
no `InvalidParameter` error is surfaced. -/
theorem C2_counterexample :
    (calculate_priceE (-100) (-105) (1/2) (1/20) (1/5) OptionType.CALL_OPTION).isOk = true
    ∧ calculate_priceE (-100) (-105) (1/2) (1/20) (1/5) OptionType.CALL_OPTION
        ≠ Except.error PyErr.invalidParameter := by
  constructor <;>
    · norm_num [calculate_priceE, pydiv, pylog, pypow_half, except_ok_bind, except_error_bind,
        Except.isOk, Except.toBool, Real.sqrt_eq_zero']
      try exact fun h => Except.noConfusion h

/-- C2, amended: the code performs no `InvalidParameter` validation at all.
When the strike is positive and the stock price is non-positive (so
`S / K ≤ 0`), the failure that reaches the caller is the `ValueError` raised
by `math.log` while evaluating the formula — a math domain error, not an
`InvalidParameter` — and a non-positive input is not guaranteed to raise at
all: jointly negative stock and strike prices return a value with no error
(see `C2_counterexample`). -/
theorem C2_amended_log_domain_error (S K T r σ : ℝ) (ty : OptionType)
    (hK : 0 < K) (hS : S ≤ 0) :
    calculate_priceE S K T r σ ty = Except.error PyErr.valueError := by
  have hKne : K ≠ 0 := ne_of_gt hK
  have hdiv : S / K ≤ 0 := div_nonpos_iff.mpr (Or.inr ⟨hS, hK.le⟩)
  simp [calculate_priceE, pydiv, pylog, hKne, hdiv, except_ok_bind, except_error_bind]

/-- Witness for the amended C2 at `S = 0, K = 105`. -/
theorem C2_amended_log_domain_error_witness :
    (0 : ℝ) < 105 ∧ (0 : ℝ) ≤ 0
    ∧ calculate_priceE 0 105 (1/2) (1/20) (1/5) OptionType.CALL_OPTION
        = Except.error PyErr.valueError :=
  ⟨by norm_num, le_refl 0,
    C2_amended_log_domain_error 0 105 (1/2) (1/20) (1/5) OptionType.CALL_OPTION
      (by norm_num) (le_refl 0)⟩

lemma ceil2_mono : Monotone ceil2 := by
  intro x y h
  unfold ceil2
  gcongr

lemma ceil2_ge (x : ℝ) : x ≤ ceil2 x := by
  unfold ceil2
  rw [le_div_iff₀ (by norm_num : (0:ℝ) < 100)]
  exact Int.le_ceil (x * 100)

lemma linspace10_mono (a b : ℝ) (hab : a ≤ b) {j k : ℕ} (hjk : j ≤ k) :
    linspace10 a b j ≤ linspace10 a b k := by
  unfold linspace10
  have h1 : (0:ℝ) ≤ b - a := sub_nonneg.mpr hab
  have h2 : (j:ℝ) ≤ (k:ℝ) := Nat.cast_le.mpr hjk
  have := mul_le_mul_of_nonneg_left h2 h1
  linarith

/-- C4: for every requested range with `min ≤ max`, `generate_grid` produces
exactly 10 axis values for each of stock price and volatility, the `k`-th
value being `ceil(linspace_value * 100) / 100`, and each axis is monotonically
non-decreasing. -/
theorem C4_grid_axes (cfg : Heatmap) (h1 : cfg.min_stock_price ≤ cfg.max_stock_price)
    (h2 : cfg.min_volatility ≤ cfg.max_volatility) :
    (cfg.generate_grid.1.length = 10 ∧ cfg.generate_grid.2.length = 10)
    ∧ (∀ j, j < 10 → cfg.generate_grid.1.getD j 0
        = ceil2 (linspace10 cfg.min_stock_price cfg.max_stock_price j))
    ∧ (∀ i, i < 10 → cfg.generate_grid.2.getD i 0
        = ceil2 (linspace10 cfg.min_volatility cfg.max_volatility i))
    ∧ cfg.generate_grid.1.Sorted (· ≤ ·) ∧ cfg.generate_grid.2.Sorted (· ≤ ·) := by
  refine ⟨⟨by simp [Heatmap.generate_grid], by simp [Heatmap.generate_grid]⟩, ?_, ?_, ?_, ?_⟩
  · intro j hj
    rw [Heatmap.generate_grid]
    rw [List.getD_eq_getElem _ _ (by simpa using hj)]
    simp [Heatmap.stock_prices]
  · intro i hi
    rw [Heatmap.generate_grid]
    rw [List.getD_eq_getElem _ _ (by simpa using hi)]
    simp [Heatmap.volatilities]
  · rw [Heatmap.generate_grid]
    refine List.Pairwise.map _ ?_ (List.pairwise_le_range 10)
    intro j k hjk
    exact ceil2_mono (linspace10_mono _ _ h1 hjk)
  · rw [Heatmap.generate_grid]
    refine List.Pairwise.map _ ?_ (List.pairwise_le_range 10)
    intro j k hjk
    exact ceil2_mono (linspace10_mono _ _ h2 hjk)

/-- Witness for C4 on the spec's concrete grid request
(stock 79.94–119.92, volatility 0.17–0.38). -/
theorem C4_grid_axes_witness :
    (7994/100 : ℝ) ≤ 11992/100 ∧
    ((Heatmap.mk 70 (11/10) (1/10) OptionType.CALL_OPTION (7994/100) (11992/100)
        (17/100) (38/100) false 0).generate_grid.1.length = 10
      ∧ (Heatmap.mk 70 (11/10) (1/10) OptionType.CALL_OPTION (7994/100) (11992/100)
        (17/100) (38/100) false 0).generate_grid.2.length = 10) :=
  ⟨by norm_num,
    (C4_grid_axes (Heatmap.mk 70 (11/10) (1/10) OptionType.CALL_OPTION (7994/100)
      (11992/100) (17/100) (38/100) false 0) (by norm_num) (by norm_num)).1⟩

lemma generate_grid_fst_getD (cfg : Heatmap) {j : ℕ} (hj : j < 10) :
    cfg.generate_grid.1.getD j 0 = cfg.stock_prices j := by
  rw [Heatmap.generate_grid, List.getD_eq_getElem _ _ (by simpa using hj)]
  simp

lemma generate_grid_snd_getD (cfg : Heatmap) {i : ℕ} (hi : i < 10) :
    cfg.generate_grid.2.getD i 0 = cfg.volatilities i := by
  rw [Heatmap.generate_grid, List.getD_eq_getElem _ _ (by simpa using hi)]
  simp

/-- C5: in price mode, matrix cell `(i, j)` is the Black-Scholes price of the
contract built from the shared strike/time/rate together with volatility
`volatilities[i]` and stock price `stock_prices[j]`, rounded to 2 decimals. -/
theorem C5_cell_axis_correspondence (cfg : Heatmap) (hpnl : cfg.isPNL = false)
    (i j : ℕ) (hi : i < 10) (hj : j < 10) :
    cfg.compute_matrix i j
      = round2 ((BlackScholes.make (cfg.generate_grid.1.getD j 0) cfg.strike_price
          cfg.time_to_exp cfg.risk_free_rate (cfg.generate_grid.2.getD i 0)
          cfg.option_type cfg.base_price).calculate_price.2) := by
  rw [generate_grid_fst_getD cfg hj, generate_grid_snd_getD cfg hi]
  simp [Heatmap.compute_matrix, hpnl]

/-- Witness for C5 on the spec's concrete grid request, cell (0, 0). -/
theorem C5_cell_axis_correspondence_witness :
    (Heatmap.mk 70 (11/10) (1/10) OptionType.CALL_OPTION (7994/100) (11992/100)
        (17/100) (38/100) false 0).isPNL = false
    ∧ (Heatmap.mk 70 (11/10) (1/10) OptionType.CALL_OPTION (7994/100) (11992/100)
        (17/100) (38/100) false 0).compute_matrix 0 0
      = round2 ((BlackScholes.make ((Heatmap.mk 70 (11/10) (1/10) OptionType.CALL_OPTION
          (7994/100) (11992/100) (17/100) (38/100) false 0).generate_grid.1.getD 0 0)
          70 (11/10) (1/10)
          ((Heatmap.mk 70 (11/10) (1/10) OptionType.CALL_OPTION (7994/100) (11992/100)
            (17/100) (38/100) false 0).generate_grid.2.getD 0 0)
          OptionType.CALL_OPTION 0).calculate_price.2) :=
  ⟨rfl, C5_cell_axis_correspondence _ rfl 0 0 (by norm_num) (by norm_num)⟩

/-- C6, amended: in P&L mode with a supplied non-zero base price, cell
`(i, j)` equals `round(base_price − price, 2)` where `price` is the
*unrounded* Black-Scholes price of the corresponding contract (the code never
builds a rounded price matrix on the P&L path). -/
theorem C6_amended_pnl_formula (cfg : Heatmap) (hpnl : cfg.isPNL = true)
    (hbase : cfg.base_price ≠ 0) (i j : ℕ) (hi : i < 10) (hj : j < 10) :
    cfg.compute_matrix i j
      = round2 (cfg.base_price - (BlackScholes.make (cfg.generate_grid.1.getD j 0)
          cfg.strike_price cfg.time_to_exp cfg.risk_free_rate
          (cfg.generate_grid.2.getD i 0) cfg.option_type
          cfg.base_price).calculate_price.2) := by
  rw [generate_grid_fst_getD cfg hj, generate_grid_snd_getD cfg hi]
  simp [Heatmap.compute_matrix, hpnl, BlackScholes.make]

/-- Witness for the amended C6, cell (0, 0) of a P&L grid with base 10. -/
theorem C6_amended_pnl_formula_witness :
    (Heatmap.mk 70 (11/10) (1/10) OptionType.CALL_OPTION (7994/100) (11992/100)
        (17/100) (38/100) true 10).isPNL = true
    ∧ (10 : ℝ) ≠ 0
    ∧ (Heatmap.mk 70 (11/10) (1/10) OptionType.CALL_OPTION (7994/100) (11992/100)
        (17/100) (38/100) true 10).compute_matrix 0 0
      = round2 (10 - (BlackScholes.make ((Heatmap.mk 70 (11/10) (1/10)
          OptionType.CALL_OPTION (7994/100) (11992/100) (17/100) (38/100) true
          10).generate_grid.1.getD 0 0) 70 (11/10) (1/10)
          ((Heatmap.mk 70 (11/10) (1/10) OptionType.CALL_OPTION (7994/100) (11992/100)
            (17/100) (38/100) true 10).generate_grid.2.getD 0 0)
          OptionType.CALL_OPTION 10).calculate_price.2) :=
  ⟨rfl, by norm_num,
    C6_amended_pnl_formula _ rfl (by norm_num) 0 0 (by norm_num) (by norm_num)⟩

/-! ## Quantitative bounds on `Φ(-2)` (used to separate rounding bins) -/

lemma integral_exp_two_mul_Iic :
    ∫ t in Iic (-2 : ℝ), Real.exp (2 * t) = 2⁻¹ * Real.exp (-4) := by
  have hrefl : (∫ x in Ioi (2:ℝ), Real.exp (2 * (-x))) = ∫ t in Iic (-2 : ℝ), Real.exp (2 * t) :=
    integral_comp_neg_Ioi 2 (fun t => Real.exp (2 * t))
  have hcomp := integral_comp_mul_left_Ioi (fun y => Real.exp (-y)) 2
    (show (0:ℝ) < 2 by norm_num)
  simp only [smul_eq_mul] at hcomp
  rw [integral_exp_neg_Ioi] at hcomp
  rw [← hrefl]
  have : ∀ x : ℝ, Real.exp (2 * (-x)) = Real.exp (-(2 * x)) := fun x => by ring_nf
  simp only [this]
  rw [hcomp]
  norm_num

lemma integrableOn_exp_affine_Iic :
    IntegrableOn (fun t => Real.exp (2 * t + 2)) (Iic (-2 : ℝ)) := by
  have h1 : IntegrableOn (fun t => Real.exp 2 * Real.exp t) (Iic (-2 : ℝ)) :=
    (integrableOn_exp_Iic (-2)).const_mul _
  refine h1.mono' ?_ ?_
  · exact ((Real.continuous_exp.comp (by continuity)).aestronglyMeasurable)
  · refine (ae_restrict_iff' measurableSet_Iic).mpr (ae_of_all _ (fun t ht => ?_))
    have ht' : t ≤ -2 := ht
    rw [Real.norm_eq_abs, abs_of_pos (Real.exp_pos _), ← Real.exp_add]
    exact Real.exp_le_exp.mpr (by linarith)

/-- Chernoff-style bound: `Φ(-2) ≤ e⁻² / (2·√(2π))`, from the pointwise bound
`exp (-(t²/2)) ≤ exp (2t + 2)`. -/
lemma normCdf_neg_two_upper :
    normCdf (-2) ≤ Real.exp (-2) / (2 * Real.sqrt (2 * Real.pi)) := by
  have hsqrt_pos : 0 < Real.sqrt (2 * Real.pi) := Real.sqrt_pos.mpr (by positivity)
  have hmono : normCdf (-2) ≤ ∫ t in Iic (-2:ℝ), Real.exp (2*t+2) / Real.sqrt (2*Real.pi) := by
    unfold normCdf
    refine setIntegral_mono_on integrable_normPdf.integrableOn
      (integrableOn_exp_affine_Iic.div_const _) measurableSet_Iic ?_
    intro t _
    unfold normPdf
    gcongr
    nlinarith [sq_nonneg (t + 2)]
  have hval : ∫ t in Iic (-2:ℝ), Real.exp (2*t+2) / Real.sqrt (2*Real.pi)
      = (Real.exp 2 * (2⁻¹ * Real.exp (-4))) / Real.sqrt (2*Real.pi) := by
    rw [integral_div]
    congr 1
    have h2 : ∀ t : ℝ, Real.exp (2*t+2) = Real.exp 2 * Real.exp (2*t) := fun t => by
      rw [← Real.exp_add]; ring_nf
    simp only [h2]
    rw [integral_mul_left, integral_exp_two_mul_Iic]
  have halg : (Real.exp 2 * (2⁻¹ * Real.exp (-4))) = Real.exp (-2) / 2 := by
    rw [show (-2:ℝ) = 2 + (-4) by norm_num, Real.exp_add]
    ring
  rw [hval, halg, div_div] at hmono
  exact hmono

/-- Interval bound: `e^(-9/2) / √(2π) ≤ Φ(-2)`, by integrating the density
over `[-3, -2]` where it is at least `e^(-9/2) / √(2π)`. -/
lemma normCdf_neg_two_lower :
    Real.exp (-(9/2)) / Real.sqrt (2 * Real.pi) ≤ normCdf (-2) := by
  have h3 : ∫ _t in Icc (-3:ℝ) (-2), (Real.exp (-(9/2)) / Real.sqrt (2*Real.pi))
      = Real.exp (-(9/2)) / Real.sqrt (2*Real.pi) := by
    rw [setIntegral_const, Real.volume_Icc]
    rw [show (-2:ℝ) - (-3) = 1 by norm_num]
    simp
  have h1 : ∫ _t in Icc (-3:ℝ) (-2), (Real.exp (-(9/2)) / Real.sqrt (2*Real.pi)) ≤
      ∫ t in Icc (-3:ℝ) (-2), normPdf t := by
    refine setIntegral_mono_on ?_ (integrable_normPdf.integrableOn)
      measurableSet_Icc ?_
    · refine integrableOn_const.mpr (Or.inr ?_)
      rw [Real.volume_Icc]
      exact ENNReal.ofReal_lt_top
    · intro t ht
      unfold normPdf
      gcongr
      nlinarith [ht.1, ht.2]
  have h2 : (∫ t in Icc (-3:ℝ) (-2), normPdf t) ≤ normCdf (-2) := by
    unfold normCdf
    refine setIntegral_mono_set integrable_normPdf.integrableOn
      (ae_of_all _ normPdf_nonneg)
      (HasSubset.Subset.eventuallyLE (fun x hx => hx.2))
  linarith

lemma sqrt_two_pi_lb : (5/2 : ℝ) ≤ Real.sqrt (2 * Real.pi) := by
  rw [show (5/2:ℝ) = Real.sqrt ((5/2)^2) from (Real.sqrt_sq (by norm_num)).symm]
  apply Real.sqrt_le_sqrt
  nlinarith [Real.pi_gt_d6]

lemma sqrt_two_pi_ub : Real.sqrt (2 * Real.pi) ≤ (13/5 : ℝ) := by
  rw [show (13/5:ℝ) = Real.sqrt ((13/5)^2) from (Real.sqrt_sq (by norm_num)).symm]
  apply Real.sqrt_le_sqrt
  nlinarith [Real.pi_lt_d2]

lemma roundHalfEven_eq_one {y : ℝ} (h1 : 1/2 < y) (h2 : y < 1) : roundHalfEven y = 1 := by
  have hf : ⌊y⌋ = 0 := Int.floor_eq_zero_iff.mpr ⟨by linarith, h2⟩
  unfold roundHalfEven
  rw [hf]
  rw [if_neg (by push_cast; linarith), if_pos (by push_cast; linarith)]
  norm_num

lemma roundHalfEven_eq_zero {y : ℝ} (h1 : 0 ≤ y) (h2 : y < 1/2) : roundHalfEven y = 0 := by
  have hf : ⌊y⌋ = 0 := Int.floor_eq_zero_iff.mpr ⟨h1, by linarith⟩
  unfold roundHalfEven
  rw [hf]
  rw [if_pos (by push_cast; linarith)]

lemma round2_eq_hundredth {x : ℝ} (h1 : 1/200 < x) (h2 : x < 1/100) :
    round2 x = 1/100 := by
  unfold round2
  rw [roundHalfEven_eq_one (by linarith) (by linarith)]
  norm_num

/-- The P&L-mode heatmap of the C6 counterexample: strike `0.02`, time `1`,
rate `-2`, degenerate ranges stock `[0.02, 0.02]` and volatility `[2, 2]`,
base price `0.0147`. -/
noncomputable def cexHeatPNL : Heatmap :=
  ⟨1/50, 1, -2, OptionType.CALL_OPTION, 1/50, 1/50, 2, 2, true, 147/10000⟩

/-- The price-mode heatmap with the same parameters. -/
noncomputable def cexHeatPrice : Heatmap :=
  ⟨1/50, 1, -2, OptionType.CALL_OPTION, 1/50, 1/50, 2, 2, false, 147/10000⟩

lemma cex_stock_price_at : cexHeatPNL.stock_prices 0 = 1/50
    ∧ cexHeatPrice.stock_prices 0 = 1/50
    ∧ cexHeatPNL.volatilities 0 = 2 ∧ cexHeatPrice.volatilities 0 = 2 := by
  refine ⟨?_, ?_, ?_, ?_⟩ <;>
    · simp only [Heatmap.stock_prices, Heatmap.volatilities, cexHeatPNL, cexHeatPrice,
        linspace10, ceil2]
      norm_num

/-- The exact Black-Scholes price at the counterexample cell:
`d1 = 0`, `d2 = -2`, so the price is `1/100 - (1/50)·e²·Φ(-2)`. -/
lemma cex_price_value :
    (BlackScholes.make (1/50) (1/50) 1 (-2) 2 OptionType.CALL_OPTION
        (147/10000)).calculate_price.2
      = 1/100 - (1/50) * Real.exp 2 * normCdf (-2) := by
  rw [calculate_price_call]
  norm_num [Real.sqrt_one, Real.log_one]
  rw [normCdf_zero]
  norm_num

lemma cex_price_lb :
    (3/500 : ℝ) ≤ (BlackScholes.make (1/50) (1/50) 1 (-2) 2 OptionType.CALL_OPTION
      (147/10000)).calculate_price.2 := by
  rw [cex_price_value]
  have hup := normCdf_neg_two_upper
  have hs_lb := sqrt_two_pi_lb
  have hsqrt_pos : (0:ℝ) < Real.sqrt (2*Real.pi) := lt_of_lt_of_le (by norm_num) hs_lb
  have he2 : Real.exp 2 * Real.exp (-2) = 1 := by
    rw [← Real.exp_add]; norm_num
  have step1 : Real.exp 2 * normCdf (-2)
      ≤ Real.exp 2 * (Real.exp (-2) / (2 * Real.sqrt (2*Real.pi))) :=
    mul_le_mul_of_nonneg_left hup (Real.exp_pos 2).le
  have step2 : Real.exp 2 * (Real.exp (-2) / (2 * Real.sqrt (2*Real.pi)))
      = 1 / (2 * Real.sqrt (2*Real.pi)) := by
    rw [← mul_div_assoc, he2]
  have step3 : 1 / (2 * Real.sqrt (2*Real.pi)) ≤ 1/5 := by
    rw [div_le_div_iff₀ (by positivity) (by norm_num)]
    linarith
  have hA : (1/50) * Real.exp 2 * normCdf (-2) ≤ 1/250 := by
    calc (1/50) * Real.exp 2 * normCdf (-2)
        = (1/50) * (Real.exp 2 * normCdf (-2)) := by ring
      _ ≤ (1/50) * (1/5) := by
          have : Real.exp 2 * normCdf (-2) ≤ 1/5 := by linarith
          gcongr
      _ = 1/250 := by norm_num
  linarith

lemma cex_price_ub :
    (BlackScholes.make (1/50) (1/50) 1 (-2) 2 OptionType.CALL_OPTION
      (147/10000)).calculate_price.2 ≤ 1/100 - 1/2612 := by
  rw [cex_price_value]
  have hlo := normCdf_neg_two_lower
  have hs_ub := sqrt_two_pi_ub
  have hSpos : (0:ℝ) < Real.sqrt (2*Real.pi) := lt_of_lt_of_le (by norm_num) sqrt_two_pi_lb
  have hE : Real.exp 2 * Real.exp (-(9/2)) = Real.exp (-(5/2)) := by
    rw [← Real.exp_add]; norm_num
  have he3 : Real.exp 3 < 20.09 := by
    have h1 : Real.exp 1 ^ 3 < 2.7182818286 ^ 3 :=
      pow_lt_pow_left₀ Real.exp_one_lt_d9 (Real.exp_pos 1).le (by norm_num)
    have h2 : Real.exp 1 ^ (3:ℕ) = Real.exp 3 := by
      rw [← Real.exp_nat_mul]; norm_num
    nlinarith
  have hE52 : Real.exp (5/2) < 20.09 :=
    lt_of_le_of_lt (Real.exp_le_exp.mpr (by norm_num)) he3
  have hElb : (20.09:ℝ)⁻¹ ≤ Real.exp (-(5/2)) := by
    rw [Real.exp_neg]
    exact (inv_le_inv₀ (by norm_num) (Real.exp_pos _)).mpr hE52.le
  have h2 : (1/50) * Real.exp 2 * (Real.exp (-(9/2)) / Real.sqrt (2*Real.pi))
      ≤ (1/50) * Real.exp 2 * normCdf (-2) := by gcongr
  have h3 : (1/50) * Real.exp 2 * (Real.exp (-(9/2)) / Real.sqrt (2*Real.pi))
      = (1/50) * (Real.exp (-(5/2)) / Real.sqrt (2*Real.pi)) := by
    rw [mul_assoc, ← mul_div_assoc, hE]
  have h5 : (20.09:ℝ)⁻¹ / (13/5) ≤ Real.exp (-(5/2)) / Real.sqrt (2*Real.pi) := by
    gcongr
  have h6 : (1/2612:ℝ) ≤ (1/50) * ((20.09:ℝ)⁻¹ / (13/5)) := by norm_num
  have h7 : (1/2612:ℝ) ≤ (1/50) * Real.exp 2 * normCdf (-2) := by
    calc (1/2612:ℝ) ≤ (1/50) * ((20.09:ℝ)⁻¹ / (13/5)) := h6
      _ ≤ (1/50) * (Real.exp (-(5/2)) / Real.sqrt (2*Real.pi)) := by gcongr
      _ = (1/50) * Real.exp 2 * (Real.exp (-(9/2)) / Real.sqrt (2*Real.pi)) := h3.symm
      _ ≤ (1/50) * Real.exp 2 * normCdf (-2) := h2
  linarith

/-- C6 counterexample: at strike `0.02`, time `1`, rate `-2`, the degenerate
grid `stock ∈ [0.02, 0.02]`, `vol ∈ [2, 2]`, base price `0.0147`, the P&L cell
`(0,0)` computed by the code (`np.round(base - price, 2) = 0.01`) differs from
the claim's `np.round(base - roundedPrice, 2) = 0.0`, because the code
subtracts the unrounded price. -/
theorem C6_counterexample :
    cexHeatPNL.compute_matrix 0 0
      ≠ round2 ((147/10000 : ℝ) - cexHeatPrice.compute_matrix 0 0) := by
  obtain ⟨hs1, hs2, hv1, hv2⟩ := cex_stock_price_at
  have hP_lb := cex_price_lb
  have hP_ub := cex_price_ub
  set P := (BlackScholes.make (1/50) (1/50) 1 (-2) 2 OptionType.CALL_OPTION
    (147/10000)).calculate_price.2 with hPdef
  have hL : cexHeatPNL.compute_matrix 0 0 = round2 ((147/10000 : ℝ) - P) := by
    simp only [Heatmap.compute_matrix]
    rw [hs1, hv1]
    simp only [cexHeatPNL]
    norm_num [BlackScholes.make]
    rfl
  have hR : cexHeatPrice.compute_matrix 0 0 = round2 P := by
    simp only [Heatmap.compute_matrix]
    rw [hs2, hv2]
    simp only [cexHeatPrice]
    norm_num [BlackScholes.make]
    rfl
  have hround2P : round2 P = 1/100 :=
    round2_eq_hundredth (by linarith) (by linarith)
  have hLval : round2 ((147/10000:ℝ) - P) = 1/100 := by
    apply round2_eq_hundredth
    · linarith
    · linarith
  have hRval : round2 ((147/10000:ℝ) - (1/100 : ℝ)) = 0 := by
    unfold round2
    rw [show ((147:ℝ)/10000 - 1/100) * 100 = 47/100 by norm_num]
    rw [roundHalfEven_eq_zero (by norm_num) (by norm_num)]
    norm_num
  rw [hL, hR, hround2P, hLval, hRval]
  norm_num

/-! ## Analysis infrastructure for the corner-monotonicity claim -/

lemma continuous_normPdf : Continuous normPdf := by
  unfold normPdf
  exact (Real.continuous_exp.comp (by continuity)).div_const _

/-- Fundamental theorem of calculus for the normal CDF: `Φ' = φ`. -/
lemma hasDerivAt_normCdf (x : ℝ) : HasDerivAt normCdf (normPdf x) x := by
  have hfun : ∀ u : ℝ, normCdf u = normCdf 0 + ∫ t in (0:ℝ)..u, normPdf t := by
    intro u
    have h := intervalIntegral.integral_Iic_sub_Iic
      (integrable_normPdf.integrableOn (s := Iic (0:ℝ)))
      (integrable_normPdf.integrableOn (s := Iic u))
    unfold normCdf
    linarith
  have hd : HasDerivAt (fun u => ∫ t in (0:ℝ)..u, normPdf t) (normPdf x) x := by
    apply intervalIntegral.integral_hasDerivAt_right
    · exact integrable_normPdf.intervalIntegrable
    · exact continuous_normPdf.stronglyMeasurable.stronglyMeasurableAtFilter
    · exact continuous_normPdf.continuousAt
  have heq : normCdf = fun u => normCdf 0 + ∫ t in (0:ℝ)..u, normPdf t := funext hfun
  rw [heq]
  exact hd.const_add (normCdf 0)

/-- The value computed by `calculate_d1`, as a standalone function of the five
parameters (for the monotonicity analysis). -/
noncomputable def bsd1 (S K T r σ : ℝ) : ℝ :=
  (Real.log (S / K) + T * (r + σ ^ 2 / 2)) / (σ * Real.sqrt T)

lemma bsd1_eq_calculate_d1 (S K T r σ b : ℝ) (ty : OptionType) :
    (BlackScholes.make S K T r σ ty b).calculate_d1.2 = bsd1 S K T r σ := rfl

/-- The call-side output of `calculate_price` as a function of stock price and
volatility (see `bscall_eq_calculate_price`). -/
noncomputable def bscall (K T r S σ : ℝ) : ℝ :=
  S * normCdf (bsd1 S K T r σ)
    - K * Real.exp (-(r * T)) * normCdf (bsd1 S K T r σ - σ * Real.sqrt T)

lemma bscall_eq_calculate_price (S K T r σ b : ℝ) :
    (BlackScholes.make S K T r σ OptionType.CALL_OPTION b).calculate_price.2
      = bscall K T r S σ :=
  calculate_price_call S K T r σ b

/-- The classical identity `S·φ(d1) = K·e^(−rT)·φ(d2)`. -/
lemma bs_pdf_identity {S K T σ : ℝ} (r : ℝ) (hS : 0 < S) (hK : 0 < K) (hT : 0 < T) (hσ : 0 < σ) :
    S * normPdf (bsd1 S K T r σ)
      = K * Real.exp (-(r * T)) * normPdf (bsd1 S K T r σ - σ * Real.sqrt T) := by
  have hsq : Real.sqrt T ^ 2 = T := Real.sq_sqrt hT.le
  have hsqrtpos : 0 < Real.sqrt T := Real.sqrt_pos.mpr hT
  have ha : σ * Real.sqrt T ≠ 0 := by positivity
  have hd1 : bsd1 S K T r σ * (σ * Real.sqrt T)
      = Real.log (S / K) + T * (r + σ ^ 2 / 2) := by
    unfold bsd1; field_simp; ring
  have ha2 : (σ * Real.sqrt T) ^ 2 = σ ^ 2 * T := by
    rw [mul_pow, hsq]
  have hdiff : bsd1 S K T r σ ^ 2 / 2 - (bsd1 S K T r σ - σ * Real.sqrt T) ^ 2 / 2
      = Real.log (S / K) + r * T := by
    linear_combination hd1 - (1/2) * ha2
  have hSK : (0:ℝ) < S / K := div_pos hS hK
  have hexp : Real.exp (-(bsd1 S K T r σ ^ 2 / 2))
      = Real.exp (-((bsd1 S K T r σ - σ * Real.sqrt T) ^ 2 / 2))
        * (K / S) * Real.exp (-(r * T)) := by
    rw [show -(bsd1 S K T r σ ^ 2 / 2)
        = -((bsd1 S K T r σ - σ * Real.sqrt T) ^ 2 / 2)
          + (-(Real.log (S / K)) + -(r * T)) from by linarith]
    rw [Real.exp_add, Real.exp_add, Real.exp_neg (Real.log (S / K)), Real.exp_log hSK]
    rw [show (S / K)⁻¹ = K / S from by rw [inv_div]]
    ring
  unfold normPdf
  rw [hexp]
  field_simp
  ring

lemma hasDerivAt_bsd1_S {K T σ : ℝ} (r : ℝ) (hK : 0 < K) (hT : 0 < T) (hσ : 0 < σ)
    {S : ℝ} (hS : 0 < S) :
    HasDerivAt (fun s => bsd1 s K T r σ) (1 / S / (σ * Real.sqrt T)) S := by
  have hne : S / K ≠ 0 := ne_of_gt (div_pos hS hK)
  have h1 : HasDerivAt (fun s : ℝ => s / K) (1 / K) S := by
    simpa using (hasDerivAt_id S).div_const K
  have h2 : HasDerivAt (fun s : ℝ => Real.log (s / K)) (1 / S) S := by
    have h := (Real.hasDerivAt_log hne).comp S h1
    convert h using 1
    field_simp
  have h3 : HasDerivAt (fun s : ℝ => Real.log (s / K) + T * (r + σ ^ 2 / 2)) (1 / S) S :=
    h2.add_const _
  exact h3.div_const (σ * Real.sqrt T)

lemma hasDerivAt_bscall_S {K T σ : ℝ} (r : ℝ) (hK : 0 < K) (hT : 0 < T) (hσ : 0 < σ)
    {S : ℝ} (hS : 0 < S) :
    HasDerivAt (fun s => bscall K T r s σ) (normCdf (bsd1 S K T r σ)) S := by
  have hd1 := hasDerivAt_bsd1_S r hK hT hσ hS
  have hphi1 : HasDerivAt (fun s => normCdf (bsd1 s K T r σ))
      (normPdf (bsd1 S K T r σ) * (1 / S / (σ * Real.sqrt T))) S :=
    (hasDerivAt_normCdf _).comp S hd1
  have hterm1 : HasDerivAt (fun s => s * normCdf (bsd1 s K T r σ))
      (1 * normCdf (bsd1 S K T r σ)
        + S * (normPdf (bsd1 S K T r σ) * (1 / S / (σ * Real.sqrt T)))) S :=
    (hasDerivAt_id S).mul hphi1
  have hd2 : HasDerivAt (fun s => bsd1 s K T r σ - σ * Real.sqrt T)
      (1 / S / (σ * Real.sqrt T)) S := hd1.sub_const _
  have hphi2 : HasDerivAt (fun s => normCdf (bsd1 s K T r σ - σ * Real.sqrt T))
      (normPdf (bsd1 S K T r σ - σ * Real.sqrt T) * (1 / S / (σ * Real.sqrt T))) S :=
    (hasDerivAt_normCdf _).comp S hd2
  have hterm2 := hphi2.const_mul (K * Real.exp (-(r * T)))
  have h := hterm1.sub hterm2
  have hgoal : (fun s => bscall K T r s σ)
      = fun s => s * normCdf (bsd1 s K T r σ)
          - K * Real.exp (-(r * T)) * normCdf (bsd1 s K T r σ - σ * Real.sqrt T) := rfl
  rw [hgoal]
  convert h using 1
  have hid := bs_pdf_identity r hS hK hT hσ
  have hSne : S ≠ 0 := ne_of_gt hS
  have hsne : σ * Real.sqrt T ≠ 0 := by positivity
  field_simp
  linear_combination (-1 : ℝ) * hid

lemma bscall_monotoneOn_S {K T σ : ℝ} (r : ℝ) (hK : 0 < K) (hT : 0 < T) (hσ : 0 < σ) :
    MonotoneOn (fun s => bscall K T r s σ) (Ioi (0:ℝ)) := by
  exact @monotoneOn_of_hasDerivWithinAt_nonneg (Ioi (0:ℝ)) (convex_Ioi 0)
    (fun s => bscall K T r s σ) (fun x => normCdf (bsd1 x K T r σ))
    (fun x hx => (hasDerivAt_bscall_S r hK hT hσ hx).continuousAt.continuousWithinAt)
    (fun x hx => by
      rw [interior_Ioi] at hx
      exact (hasDerivAt_bscall_S r hK hT hσ hx).hasDerivWithinAt)
    (fun x _ => (normCdf_pos _).le)

lemma hasDerivAt_bsd1_sigma {S K T : ℝ} (r : ℝ) (hS : 0 < S) (hK : 0 < K) (hT : 0 < T)
    {σ : ℝ} (hσ : 0 < σ) :
    HasDerivAt (fun v => bsd1 S K T r v)
      ((T * σ * (σ * Real.sqrt T) - (Real.log (S / K) + T * (r + σ ^ 2 / 2)) * Real.sqrt T)
        / (σ * Real.sqrt T) ^ 2) σ := by
  have hsq : HasDerivAt (fun v : ℝ => v ^ 2) (2 * σ) σ := by
    simpa using hasDerivAt_pow 2 σ
  have hnum : HasDerivAt (fun v : ℝ => Real.log (S / K) + T * (r + v ^ 2 / 2)) (T * σ) σ := by
    have h2 := (hsq.div_const 2).const_add r
    have h3 := h2.const_mul T
    have h4 := h3.const_add (Real.log (S / K))
    convert h4 using 1
    ring
  have hden : HasDerivAt (fun v : ℝ => v * Real.sqrt T) (Real.sqrt T) σ := by
    simpa using (hasDerivAt_id σ).mul_const (Real.sqrt T)
  have hdenne : σ * Real.sqrt T ≠ 0 := by positivity
  exact hnum.div hden hdenne

lemma hasDerivAt_bscall_sigma {S K T : ℝ} (r : ℝ) (hS : 0 < S) (hK : 0 < K) (hT : 0 < T)
    {σ : ℝ} (hσ : 0 < σ) :
    HasDerivAt (fun v => bscall K T r S v)
      (S * normPdf (bsd1 S K T r σ) * Real.sqrt T) σ := by
  have hd1 := hasDerivAt_bsd1_sigma r hS hK hT hσ
  set A := (T * σ * (σ * Real.sqrt T) - (Real.log (S / K) + T * (r + σ ^ 2 / 2)) * Real.sqrt T)
    / (σ * Real.sqrt T) ^ 2 with hA
  have hphi1 : HasDerivAt (fun v => normCdf (bsd1 S K T r v))
      (normPdf (bsd1 S K T r σ) * A) σ :=
    (hasDerivAt_normCdf _).comp σ hd1
  have hterm1 := hphi1.const_mul S
  have hlin : HasDerivAt (fun v : ℝ => v * Real.sqrt T) (Real.sqrt T) σ := by
    simpa using (hasDerivAt_id σ).mul_const (Real.sqrt T)
  have hd2 : HasDerivAt (fun v => bsd1 S K T r v - v * Real.sqrt T) (A - Real.sqrt T) σ :=
    hd1.sub hlin
  have hphi2 : HasDerivAt (fun v => normCdf (bsd1 S K T r v - v * Real.sqrt T))
      (normPdf (bsd1 S K T r σ - σ * Real.sqrt T) * (A - Real.sqrt T)) σ :=
    (hasDerivAt_normCdf _).comp σ hd2
  have hterm2 := hphi2.const_mul (K * Real.exp (-(r * T)))
  have h := hterm1.sub hterm2
  have hid := bs_pdf_identity r hS hK hT hσ
  convert h using 1
  linear_combination (Real.sqrt T - A) * hid

lemma bscall_monotoneOn_sigma {S K T : ℝ} (r : ℝ) (hS : 0 < S) (hK : 0 < K) (hT : 0 < T) :
    MonotoneOn (fun v => bscall K T r S v) (Ioi (0:ℝ)) := by
  exact @monotoneOn_of_hasDerivWithinAt_nonneg (Ioi (0:ℝ)) (convex_Ioi 0)
    (fun v => bscall K T r S v) (fun v => S * normPdf (bsd1 S K T r v) * Real.sqrt T)
    (fun v hv => (hasDerivAt_bscall_sigma r hS hK hT hv).continuousAt.continuousWithinAt)
    (fun v hv => by
      rw [interior_Ioi] at hv
      exact (hasDerivAt_bscall_sigma r hS hK hT hv).hasDerivWithinAt)
    (fun v _ => by
      have := normPdf_pos (bsd1 S K T r v)
      positivity)

lemma roundHalfEven_mono : Monotone roundHalfEven := by
  intro x y hxy
  have hff : ⌊x⌋ ≤ ⌊y⌋ := Int.floor_le_floor hxy
  rcases eq_or_lt_of_le hff with hf | hf
  · unfold roundHalfEven
    rw [← hf]
    have hfrac : x - (⌊x⌋:ℝ) ≤ y - ⌊x⌋ := by linarith
    split_ifs <;> first | omega | linarith
  · unfold roundHalfEven
    split_ifs <;> omega

lemma round2_mono : Monotone round2 := by
  intro x y h
  unfold round2
  have h100 : x * 100 ≤ y * 100 := by nlinarith
  have := roundHalfEven_mono h100
  gcongr

/-- C8: for every valid grid evaluation in CALL price mode, the top-left cell
(lowest volatility, lowest stock price) of the price matrix is at most the
bottom-right cell (highest volatility, highest stock price): the
Black-Scholes call price is non-decreasing in both stock price and
volatility, and the 2-decimal rounding preserves the order. -/
theorem C8_corner_monotonicity (cfg : Heatmap)
    (hpnl : cfg.isPNL = false) (hty : cfg.option_type = OptionType.CALL_OPTION)
    (hK : 0 < cfg.strike_price) (hT : 0 < cfg.time_to_exp)
    (hs0 : 0 < cfg.min_stock_price) (hs : cfg.min_stock_price ≤ cfg.max_stock_price)
    (hv0 : 0 < cfg.min_volatility) (hv : cfg.min_volatility ≤ cfg.max_volatility) :
    cfg.compute_matrix 0 0 ≤ cfg.compute_matrix 9 9 := by
  have hlin0 : ∀ a b : ℝ, linspace10 a b 0 = a := by
    intro a b; unfold linspace10; norm_num
  have hlin9 : ∀ a b : ℝ, linspace10 a b 9 = b := by
    intro a b; unfold linspace10; norm_num
  have hs0pos : 0 < cfg.stock_prices 0 := by
    unfold Heatmap.stock_prices
    rw [hlin0]
    exact lt_of_lt_of_le hs0 (ceil2_ge _)
  have hv0pos : 0 < cfg.volatilities 0 := by
    unfold Heatmap.volatilities
    rw [hlin0]
    exact lt_of_lt_of_le hv0 (ceil2_ge _)
  have hss : cfg.stock_prices 0 ≤ cfg.stock_prices 9 := by
    unfold Heatmap.stock_prices
    exact ceil2_mono (linspace10_mono _ _ hs (by norm_num))
  have hvv : cfg.volatilities 0 ≤ cfg.volatilities 9 := by
    unfold Heatmap.volatilities
    exact ceil2_mono (linspace10_mono _ _ hv (by norm_num))
  have hs9pos : 0 < cfg.stock_prices 9 := lt_of_lt_of_le hs0pos hss
  have hv9pos : 0 < cfg.volatilities 9 := lt_of_lt_of_le hv0pos hvv
  have hcell : ∀ i j : ℕ, cfg.compute_matrix i j
      = round2 (bscall cfg.strike_price cfg.time_to_exp cfg.risk_free_rate
          (cfg.stock_prices j) (cfg.volatilities i)) := by
    intro i j
    simp only [Heatmap.compute_matrix, hpnl, Bool.false_eq_true, if_false]
    rw [hty, bscall_eq_calculate_price]
  rw [hcell 0 0, hcell 9 9]
  apply round2_mono
  calc bscall cfg.strike_price cfg.time_to_exp cfg.risk_free_rate
        (cfg.stock_prices 0) (cfg.volatilities 0)
      ≤ bscall cfg.strike_price cfg.time_to_exp cfg.risk_free_rate
        (cfg.stock_prices 0) (cfg.volatilities 9) :=
        (bscall_monotoneOn_sigma cfg.risk_free_rate hs0pos hK hT)
          (mem_Ioi.mpr hv0pos) (mem_Ioi.mpr hv9pos) hvv
    _ ≤ bscall cfg.strike_price cfg.time_to_exp cfg.risk_free_rate
        (cfg.stock_prices 9) (cfg.volatilities 9) :=
        (bscall_monotoneOn_S cfg.risk_free_rate hK hT hv9pos)
          (mem_Ioi.mpr hs0pos) (mem_Ioi.mpr hs9pos) hss

/-- Witness for C8 on the spec's concrete scenario: strike 70, time 1.10,
rate 0.10, stock range 79.94–119.92, volatility range 0.17–0.38. -/
theorem C8_corner_monotonicity_witness :
    (0:ℝ) < 70 ∧
    (Heatmap.mk 70 (11/10) (1/10) OptionType.CALL_OPTION (7994/100) (11992/100)
        (17/100) (38/100) false 0).compute_matrix 0 0
      ≤ (Heatmap.mk 70 (11/10) (1/10) OptionType.CALL_OPTION (7994/100) (11992/100)
        (17/100) (38/100) false 0).compute_matrix 9 9 :=
  ⟨by norm_num,
    C8_corner_monotonicity _ rfl rfl (by norm_num) (by norm_num) (by norm_num)
      (by norm_num) (by norm_num) (by norm_num)⟩
